import Mathlib

/-!
Shallow embedding of the on-device BCI command pipeline
(`src/openbci/openbci/src/main.rs`): the OSC message handler
`handle_mental_imagery`, the motor-pin actuator `MotorPins`, and the
listener/watchdog loop `osc_listener_thread`.

Machine floats appear only as inputs to strict `>` comparisons against the
literal `0.6`, so `f32` values are modelled by the inductive `F32` below
(NaN, infinities, or an exact rational value) and Rust's `f32 >` by
`F32.gt`, which is false whenever either side is NaN.
-/

namespace OpenBci

/-- Model of an `f32` value: NaN, an infinity, or a finite value carried as
an exact rational. -/
inductive F32 where
  | nan : F32
  | negInf : F32
  | posInf : F32
  | val (q : ℚ) : F32
deriving DecidableEq

/-- Rust's `f32` strict `>`: false whenever either operand is NaN;
`+∞` is above every finite value and `-∞` below. -/
def F32.gt : F32 → F32 → Bool
  | .val a, .val b => a > b
  | .val _, .negInf => true
  | .posInf, .val _ => true
  | .posInf, .negInf => true
  | _, _ => false

/-- The threshold literal `0.6` from the source, as the normalized
rational `3/5` (see `threshold_eq_decimal` below). -/
def threshold : ℚ := Rat.mk' 3 5 (by decide) (by decide)

/-- The five discrete drive commands (spec §3 `DriveCommand`). -/
inductive DriveCommand where
  | forward | backward | turnLeft | turnRight | stop
deriving DecidableEq

/-- A pair of classifier probabilities, `(right, left)` in the positional
order of the OSC message arguments (spec §3 `PredictionPair`). -/
structure PredictionPair where
  right : F32
  left : F32
deriving DecidableEq

/-- The arbitration policy of `handle_mental_imagery` (main.rs lines
153-159): `left > 0.6` gives `turnLeft`, else `right > 0.6` gives
`turnRight`, else `stop`. -/
def arbitrate (p : PredictionPair) : DriveCommand :=
  if F32.gt p.left (.val threshold) then .turnLeft
  else if F32.gt p.right (.val threshold) then .turnRight
  else .stop

/-- The six drive lines of `MotorPins`. -/
inductive Line where
  | leftForward | rightForward | leftBackward | rightBackward
  | leftEnable | rightEnable
deriving DecidableEq

/-- The boolean levels of the six drive lines (spec §3 `ActuatorLineSet`).
`true` is high. -/
structure MotorState where
  left_forward : Bool
  right_forward : Bool
  left_backward : Bool
  right_backward : Bool
  left_enable : Bool
  right_enable : Bool
deriving DecidableEq

/-- Drive one line to a level. -/
def setLine (s : MotorState) : Line → Bool → MotorState
  | .leftForward, b => { s with left_forward := b }
  | .rightForward, b => { s with right_forward := b }
  | .leftBackward, b => { s with left_backward := b }
  | .rightBackward, b => { s with right_backward := b }
  | .leftEnable, b => { s with left_enable := b }
  | .rightEnable, b => { s with right_enable := b }

/-- The pin writes of `MotorPins::forward`, in source order
(main.rs lines 50-58). -/
def forwardWrites : List (Line × Bool) :=
  [(.leftEnable, true), (.rightEnable, true),
   (.leftForward, true), (.rightForward, true),
   (.leftBackward, false), (.rightBackward, false)]

/-- The pin writes of `MotorPins::backward`, in source order
(main.rs lines 61-69). -/
def backwardWrites : List (Line × Bool) :=
  [(.leftEnable, true), (.rightEnable, true),
   (.leftBackward, true), (.rightBackward, true),
   (.leftForward, false), (.rightForward, false)]

/-- The pin writes of `MotorPins::turn_left`, in source order
(main.rs lines 72-80). -/
def turnLeftWrites : List (Line × Bool) :=
  [(.leftEnable, true), (.rightEnable, true),
   (.leftForward, false), (.rightForward, true),
   (.rightBackward, false), (.leftBackward, true)]

/-- The pin writes of `MotorPins::turn_right`, in source order
(main.rs lines 83-91). -/
def turnRightWrites : List (Line × Bool) :=
  [(.leftEnable, true), (.rightEnable, true),
   (.leftForward, true), (.rightForward, false),
   (.rightBackward, true), (.leftBackward, false)]

/-- The pin writes of `MotorPins::stop`, in source order
(main.rs lines 94-102). -/
def stopWrites : List (Line × Bool) :=
  [(.leftEnable, false), (.rightEnable, false),
   (.leftForward, false), (.leftBackward, false),
   (.rightForward, false), (.rightBackward, false)]

/-- Perform a sequence of pin writes. Each `set_high`/`set_low` call in the
source is fallible (`anyhow::Result`), modelled by the oracle `failing`:
a write to a failing line aborts the sequence (the `?` operator) and the
result carries the line whose write failed, together with the pin state
actually reached. -/
def runWrites (failing : Line → Bool) :
    List (Line × Bool) → MotorState → MotorState × Option Line
  | [], s => (s, none)
  | (l, b) :: ws, s =>
      if failing l then (s, some l)
      else runWrites failing ws (setLine s l b)

/-- The states observable after each individual pin write of a fault-free
sequence (one entry per write). -/
def scanWrites : List (Line × Bool) → MotorState → List MotorState
  | [], _ => []
  | (l, b) :: ws, s =>
      let s' := setLine s l b
      s' :: scanWrites ws s'

/-- All writes of a sequence applied, ignoring faults. -/
def applyWrites (ws : List (Line × Bool)) (s : MotorState) : MotorState :=
  ws.foldl (fun t lb => setLine t lb.1 lb.2) s

/-- `MotorPins::forward` (main.rs lines 50-58). -/
def MotorPins.forward (failing : Line → Bool) (s : MotorState) :
    MotorState × Option Line := runWrites failing forwardWrites s

/-- `MotorPins::backward` (main.rs lines 61-69). -/
def MotorPins.backward (failing : Line → Bool) (s : MotorState) :
    MotorState × Option Line := runWrites failing backwardWrites s

/-- `MotorPins::turn_left` (main.rs lines 72-80). -/
def MotorPins.turn_left (failing : Line → Bool) (s : MotorState) :
    MotorState × Option Line := runWrites failing turnLeftWrites s

/-- `MotorPins::turn_right` (main.rs lines 83-91). -/
def MotorPins.turn_right (failing : Line → Bool) (s : MotorState) :
    MotorState × Option Line := runWrites failing turnRightWrites s

/-- `MotorPins::stop` (main.rs lines 94-102). -/
def MotorPins.stop (failing : Line → Bool) (s : MotorState) :
    MotorState × Option Line := runWrites failing stopWrites s

/-- Line pattern of the `Forward` command (spec §4.1 table). -/
def forwardPattern : MotorState :=
  ⟨true, true, false, false, true, true⟩

/-- Line pattern of the `Backward` command (spec §4.1 table). -/
def backwardPattern : MotorState :=
  ⟨false, false, true, true, true, true⟩

/-- Line pattern of the `TurnLeft` command (spec §4.1 table). -/
def turnLeftPattern : MotorState :=
  ⟨false, true, true, false, true, true⟩

/-- Line pattern of the `TurnRight` command (spec §4.1 table). -/
def turnRightPattern : MotorState :=
  ⟨true, false, false, true, true, true⟩

/-- Line pattern of the `Stop` command (spec §4.1 table). -/
def stopPattern : MotorState :=
  ⟨false, false, false, false, false, false⟩

/-- The paired-line invariant of spec §3: a forward line and its paired
backward line for the same side are never both high. -/
def pairedOk (s : MotorState) : Bool :=
  !(s.left_forward && s.left_backward) &&
  !(s.right_forward && s.right_backward)

/-- An oracle under which no pin write fails. -/
def noFail : Line → Bool := fun _ => false

/-- The prediction value `0.9` of the spec's end-to-end scenario. -/
def q09 : ℚ := Rat.mk' 9 10 (by decide) (by decide)

/-- The prediction value `0.8` of the spec's end-to-end scenario. -/
def q08 : ℚ := Rat.mk' 4 5 (by decide) (by decide)

/-- The prediction value `0.3` of the spec's end-to-end scenario. -/
def q03 : ℚ := Rat.mk' 3 10 (by decide) (by decide)

/-- The prediction value `0.2` of the spec's end-to-end scenario. -/
def q02 : ℚ := Rat.mk' 1 5 (by decide) (by decide)

/-- The prediction value `0.1` of the spec's end-to-end scenario. -/
def q01 : ℚ := Rat.mk' 1 10 (by decide) (by decide)

/-! ## OSC protocol and the listener -/

/-- The OSC argument types of the `rosc` crate that the handler can meet.
Float payloads are `F32`; the payloads of the other variants are inert for
this program (only the constructor tag is ever inspected). -/
inductive OscType where
  | int (v : ℤ)
  | float (f : F32)
  | string (s : String)
  | blob (b : List ℕ)
  | time (t : ℕ)
  | long (v : ℤ)
  | double (d : F32)
  | char (c : Char)
  | bool (b : Bool)
  | nil
deriving DecidableEq

/-- Whether an OSC argument is exactly an `OscType::Float`. -/
def OscType.isFloat : OscType → Bool
  | .float _ => true
  | _ => false

/-- An OSC message: address pattern plus typed argument list. -/
structure OscMessage where
  addr : String
  args : List OscType
deriving DecidableEq

/-- An OSC packet: a single message or a bundle (time tag plus ordered
members, which may themselves be bundles). -/
inductive OscPacket where
  | message (msg : OscMessage)
  | bundle (timetag : ℕ) (content : List OscPacket)

/-- Result of `handle_mental_imagery`: either the function returned (with
the motor state reached and, when the pin writes faulted, the failing
line — `ret m (some l)` is the `Err` return through `?`), or it panicked
at `motors.lock().unwrap()` on a poisoned mutex. -/
inductive HandleResult where
  | ret (m : MotorState) (err : Option Line)
  | panicked (m : MotorState)
deriving DecidableEq

/-- `handle_mental_imagery` (main.rs lines 134-163). `lockPoisoned` models
whether `motors.lock()` would return `Err`: the handler calls
`.unwrap()` on it, so a poisoned lock panics — but only after both
arguments were extracted as floats. Non-float arguments or fewer than two
arguments return `Ok(())` without touching the motors. -/
def handle_mental_imagery (failing : Line → Bool) (lockPoisoned : Bool)
    (msg : OscMessage) (m : MotorState) : HandleResult :=
  match msg.args with
  | a0 :: a1 :: _ =>
      match a0 with
      | .float right_prediction =>
          match a1 with
          | .float left_prediction =>
              if lockPoisoned then .panicked m
              else if F32.gt left_prediction (.val threshold) then
                let (m', e) := MotorPins.turn_left failing m
                .ret m' e
              else if F32.gt right_prediction (.val threshold) then
                let (m', e) := MotorPins.turn_right failing m
                .ret m' e
              else
                let (m', e) := MotorPins.stop failing m
                .ret m' e
          | _ => .ret m none
      | _ => .ret m none
  | _ => .ret m none

/-- An entry of the `error!` log. -/
inductive LogEntry where
  | decodeError
  | handleError (l : Line)
  | recvError
deriving DecidableEq

/-- The listener thread's state: the shared motor lines, the
`last_message_time` clock (milliseconds; the spec's WatchdogClock) and the
log written so far (most recent entry first). -/
structure ListenerState where
  motors : MotorState
  last_message_time : ℕ
  log : List LogEntry
deriving DecidableEq

/-- One outcome of `socket.recv_from` followed by decoding: a decoded
packet, a decode failure (`datagram none`), a receive timeout
(`WouldBlock`), or another receive error. -/
inductive RecvEvent where
  | datagram (d : Option OscPacket)
  | wouldBlock
  | recvFailure

/-- Outcome of one iteration of the listener loop: the next state, or a
thread panic (which kills the loop). -/
inductive LoopOutcome where
  | next (s : ListenerState)
  | panicked (s : ListenerState)
deriving DecidableEq

/-- The watchdog silence threshold `TIMEOUT_MILLIS` (main.rs line 25). -/
def TIMEOUT_MILLIS : ℕ := 5000

/-- Handling of one decoded `OscPacket::Message` by the listener loop
(main.rs lines 184-191): messages addressed to `/neuropype` go to
`handle_mental_imagery` (a handler error is logged), and
`last_message_time` is then set to the current instant; other addresses
are ignored. -/
def processMessage (failing : Line → Bool) (lockPoisoned : Bool) (now : ℕ)
    (msg : OscMessage) (s : ListenerState) : LoopOutcome :=
  if msg.addr = "/neuropype" then
    match handle_mental_imagery failing lockPoisoned msg s.motors with
    | .ret m' none =>
        .next { s with motors := m', last_message_time := now }
    | .ret m' (some l) =>
        .next { s with motors := m', last_message_time := now,
                       log := .handleError l :: s.log }
    | .panicked m' => .panicked { s with motors := m' }
  else .next s

/-- Handling of the member list of a decoded `OscPacket::Bundle`
(main.rs lines 192-203): members are visited in order, only
`OscPacket::Message` members are processed (nested bundles fall through
the `if let` and are skipped), each as in `processMessage`. -/
def processBundleContent (failing : Line → Bool) (lockPoisoned : Bool)
    (now : ℕ) : List OscPacket → ListenerState → LoopOutcome
  | [], s => .next s
  | .message msg :: rest, s =>
      match processMessage failing lockPoisoned now msg s with
      | .next s' => processBundleContent failing lockPoisoned now rest s'
      | .panicked s' => .panicked s'
  | .bundle _ _ :: rest, s => processBundleContent failing lockPoisoned now rest s

/-- One iteration of the listener loop body (main.rs lines 179-220),
given the receive outcome `ev` at instant `now`: decode failures and
receive errors are logged and the loop continues; a `WouldBlock` timeout
runs the watchdog check — when more than `TIMEOUT_MILLIS` ms have elapsed
since `last_message_time` it locks the motors (skipping on a poisoned
lock) and calls `stop`, discarding any error. -/
def step (failing : Line → Bool) (lockPoisoned : Bool) (now : ℕ)
    (ev : RecvEvent) (s : ListenerState) : LoopOutcome :=
  match ev with
  | .datagram none => .next { s with log := .decodeError :: s.log }
  | .datagram (some (.message msg)) =>
      processMessage failing lockPoisoned now msg s
  | .datagram (some (.bundle _ content)) =>
      processBundleContent failing lockPoisoned now content s
  | .wouldBlock =>
      if now - s.last_message_time > TIMEOUT_MILLIS then
        if lockPoisoned then .next s
        else .next { s with motors := (MotorPins.stop failing s.motors).1 }
      else .next s
  | .recvFailure => .next { s with log := .recvError :: s.log }

/-- The state after `k` consecutive receive-timeout ticks with no inbound
datagram, the `i`-th tick occurring `100 * i` ms (one poll interval per
tick) after the initial `last_message_time`. Timeout ticks never panic;
the `panicked` arm is dead and returns the state unchanged. -/
def idleTicks (failing : Line → Bool) (lockPoisoned : Bool)
    (s0 : ListenerState) : ℕ → ListenerState
  | 0 => s0
  | k + 1 =>
      let s := idleTicks failing lockPoisoned s0 k
      match step failing lockPoisoned
          (s0.last_message_time + 100 * (k + 1)) .wouldBlock s with
      | .next s' => s'
      | .panicked s' => s'

/-- An oracle under which every pin write fails. -/
def allFail : Line → Bool := fun _ => true

/-! ## Helper lemmas -/

/-- The threshold constant is the decimal literal `0.6` of the source. -/
theorem threshold_eq_decimal : threshold = 0.6 := by
  unfold threshold
  rw [Rat.mk'_eq_divInt]
  norm_num [Rat.divInt_eq_div]

theorem applyWrites_cons (l : Line) (b : Bool) (ws : List (Line × Bool))
    (s : MotorState) :
    applyWrites ((l, b) :: ws) s = applyWrites ws (setLine s l b) := rfl

/-- A fault-free completed write sequence reaches the state with every
write applied. -/
theorem runWrites_eq_applyWrites (failing : Line → Bool) :
    ∀ (ws : List (Line × Bool)) (s m' : MotorState),
      runWrites failing ws s = (m', none) → m' = applyWrites ws s := by
  intro ws
  induction ws with
  | nil =>
      intro s m' h
      simp only [runWrites, Prod.mk.injEq] at h
      simp [applyWrites, ← h.1]
  | cons w ws ih =>
      obtain ⟨l, b⟩ := w
      intro s m' h
      by_cases hf : failing l
      · simp [runWrites, hf] at h
      · simp only [runWrites, hf, if_neg, Bool.false_eq_true, ite_false] at h
        simpa [applyWrites_cons] using ih _ _ h

theorem applyWrites_forwardWrites (s : MotorState) :
    applyWrites forwardWrites s = forwardPattern := rfl

theorem applyWrites_backwardWrites (s : MotorState) :
    applyWrites backwardWrites s = backwardPattern := rfl

theorem applyWrites_turnLeftWrites (s : MotorState) :
    applyWrites turnLeftWrites s = turnLeftPattern := rfl

theorem applyWrites_turnRightWrites (s : MotorState) :
    applyWrites turnRightWrites s = turnRightPattern := rfl

theorem applyWrites_stopWrites (s : MotorState) :
    applyWrites stopWrites s = stopPattern := rfl

/-- With no pin faults, `MotorPins::stop` reaches the all-low pattern from
any prior line state. -/
theorem stop_noFail (m : MotorState) :
    MotorPins.stop noFail m = (stopPattern, none) := rfl

theorem turn_left_noFail (m : MotorState) :
    MotorPins.turn_left noFail m = (turnLeftPattern, none) := rfl

theorem turn_right_noFail (m : MotorState) :
    MotorPins.turn_right noFail m = (turnRightPattern, none) := rfl

/-- With the mutex not poisoned, `handle_mental_imagery` always returns
(it never panics). -/
theorem handle_mental_imagery_ret (failing : Line → Bool) (msg : OscMessage)
    (m : MotorState) :
    ∃ m' e, handle_mental_imagery failing false msg m = .ret m' e := by
  obtain ⟨addr, args⟩ := msg
  unfold handle_mental_imagery
  rcases args with _ | ⟨a0, _ | ⟨a1, rest⟩⟩
  · exact ⟨m, none, rfl⟩
  · exact ⟨m, none, rfl⟩
  · cases a0 <;> try exact ⟨m, none, rfl⟩
    cases a1 <;> try exact ⟨m, none, rfl⟩
    simp only [Bool.false_eq_true, if_false]
    split
    · exact ⟨_, _, rfl⟩
    · split
      · exact ⟨_, _, rfl⟩
      · exact ⟨_, _, rfl⟩

/-- With the mutex not poisoned, processing one message always yields a
next state (never a panic). -/
theorem processMessage_next (failing : Line → Bool) (now : ℕ)
    (msg : OscMessage) (s : ListenerState) :
    ∃ s', processMessage failing false now msg s = .next s' := by
  by_cases h : msg.addr = "/neuropype"
  · obtain ⟨m', e, he⟩ := handle_mental_imagery_ret failing msg s.motors
    cases e with
    | none =>
        exact ⟨{ s with motors := m', last_message_time := now },
          by simp [processMessage, h, he]⟩
    | some l =>
        exact ⟨{ s with motors := m', last_message_time := now,
                        log := .handleError l :: s.log },
          by simp [processMessage, h, he]⟩
  · exact ⟨s, by simp [processMessage, h]⟩

/-- With the mutex not poisoned, processing a bundle's member list always
yields a next state (never a panic). -/
theorem processBundleContent_next (failing : Line → Bool) (now : ℕ) :
    ∀ (content : List OscPacket) (s : ListenerState),
      ∃ s', processBundleContent failing false now content s = .next s' := by
  intro content
  induction content with
  | nil => exact fun s => ⟨s, rfl⟩
  | cons p rest ih =>
      intro s
      cases p with
      | message msg =>
          obtain ⟨s', hs'⟩ := processMessage_next failing now msg s
          simpa [processBundleContent, hs'] using ih s'
      | bundle tt c => simpa [processBundleContent] using ih s

/-- With the mutex not poisoned, every loop iteration yields a next state:
the listener loop never terminates on a steady-state error. -/
theorem step_next (failing : Line → Bool) (now : ℕ) (ev : RecvEvent)
    (s : ListenerState) :
    ∃ s', step failing false now ev s = .next s' := by
  cases ev with
  | datagram d =>
      cases d with
      | none => exact ⟨_, rfl⟩
      | some p =>
          cases p with
          | message msg => exact processMessage_next failing now msg s
          | bundle tt content => exact processBundleContent_next failing now content s
  | wouldBlock =>
      by_cases h : now - s.last_message_time > TIMEOUT_MILLIS
      · exact ⟨{ s with motors := (MotorPins.stop failing s.motors).1 },
          by simp [step, h]⟩
      · exact ⟨s, by simp [step, h]⟩
  | recvFailure => exact ⟨_, rfl⟩

/-- A receive-timeout tick never changes `last_message_time`. -/
theorem wouldBlock_tick_last (failing : Line → Bool) (lockPoisoned : Bool)
    (now : ℕ) (s : ListenerState) :
    (match step failing lockPoisoned now .wouldBlock s with
     | .next s' => s'
     | .panicked s' => s').last_message_time = s.last_message_time := by
  simp only [step]
  split_ifs <;> rfl

/-- Receive-timeout ticks never change `last_message_time`. -/
theorem idleTicks_last_message_time (failing : Line → Bool)
    (lockPoisoned : Bool) (s0 : ListenerState) :
    ∀ k, (idleTicks failing lockPoisoned s0 k).last_message_time
      = s0.last_message_time := by
  intro k
  induction k with
  | zero => rfl
  | succ k ih =>
      unfold idleTicks
      rw [wouldBlock_tick_last, ih]

theorem q09_gt : F32.gt (.val q09) (.val threshold) = true := by decide

theorem q08_gt : F32.gt (.val q08) (.val threshold) = true := by decide

theorem q01_not_gt : F32.gt (.val q01) (.val threshold) = false := by decide

/-- Non-float leading arguments make `handle_mental_imagery` return
`Ok(())` without touching the motors. -/
theorem handle_non_float (failing : Line → Bool) (lockPoisoned : Bool)
    (addr : String) (a0 a1 : OscType) (rest : List OscType) (m : MotorState)
    (h : a0.isFloat = false ∨ a1.isFloat = false) :
    handle_mental_imagery failing lockPoisoned ⟨addr, a0 :: a1 :: rest⟩ m
      = .ret m none := by
  cases a0 <;> cases a1 <;> simp_all [handle_mental_imagery, OscType.isFloat]

/-- Fewer than two arguments make `handle_mental_imagery` return `Ok(())`
without touching the motors. -/
theorem handle_short_args (failing : Line → Bool) (lockPoisoned : Bool)
    (addr : String) (args : List OscType) (m : MotorState)
    (h : args.length < 2) :
    handle_mental_imagery failing lockPoisoned ⟨addr, args⟩ m = .ret m none := by
  rcases args with _ | ⟨a0, _ | ⟨a1, rest⟩⟩
  · rfl
  · rfl
  · exact absurd h (by simp)

/-! ## Claim theorems -/

/-- C1: if no inbound datagram has been accepted for more than 5000 ms,
the next receive-timeout tick of the listener loop locks the motors and
invokes `stop`, regardless of the current line state; consequently, on the
idle tick trace (one tick per 100 ms poll interval after the last accepted
command) the lines are in the `Stop` pattern from tick 51 onward, i.e. by
5100 ms — one poll interval past the 5000 ms silence threshold. -/
theorem watchdog_forces_stop :
    (∀ (now : ℕ) (s : ListenerState),
      now - s.last_message_time > TIMEOUT_MILLIS →
      step noFail false now .wouldBlock s
        = .next { s with motors := stopPattern })
    ∧ ∀ (s0 : ListenerState) (k : ℕ), 51 ≤ k →
      (idleTicks noFail false s0 k).motors = stopPattern := by
  constructor
  · intro now s h
    simp [step, h, stop_noFail]
  · intro s0 k hk
    obtain ⟨j, rfl⟩ : ∃ j, k = j + 1 := ⟨k - 1, by omega⟩
    unfold idleTicks
    have hc : s0.last_message_time + 100 * (j + 1)
        - (idleTicks noFail false s0 j).last_message_time > TIMEOUT_MILLIS := by
      rw [idleTicks_last_message_time]
      simp only [TIMEOUT_MILLIS]
      omega
    simp [step, hc, stop_noFail]

/-- Witness for C1 at a concrete silent trace: after 51 idle ticks from a
moving state the lines are all low, and a single timeout tick 5100 ms
past the clock forces the `Stop` pattern. -/
theorem watchdog_forces_stop_witness :
    (idleTicks noFail false ⟨backwardPattern, 0, []⟩ 51).motors = stopPattern
    ∧ step noFail false 5100 .wouldBlock ⟨backwardPattern, 0, []⟩
        = .next ⟨stopPattern, 0, []⟩ :=
  ⟨watchdog_forces_stop.2 ⟨backwardPattern, 0, []⟩ 51 (by decide),
   watchdog_forces_stop.1 5100 ⟨backwardPattern, 0, []⟩ (by decide)⟩

/-- C2: the arbitration of `handle_mental_imagery` gives left-turn
priority — `left > 0.6` yields `TurnLeft` regardless of `right`; otherwise
`right > 0.6` yields `TurnRight`; otherwise `Stop` — and it can never
produce `Forward` or `Backward`. -/
theorem arbitrate_priority_policy :
    ∀ r l : F32,
      (F32.gt l (.val threshold) = true → arbitrate ⟨r, l⟩ = .turnLeft)
      ∧ (F32.gt l (.val threshold) = false →
          F32.gt r (.val threshold) = true → arbitrate ⟨r, l⟩ = .turnRight)
      ∧ (F32.gt l (.val threshold) = false →
          F32.gt r (.val threshold) = false → arbitrate ⟨r, l⟩ = .stop)
      ∧ arbitrate ⟨r, l⟩ ≠ .forward ∧ arbitrate ⟨r, l⟩ ≠ .backward := by
  intro r l
  refine ⟨fun h => by simp [arbitrate, h],
          fun h1 h2 => by simp [arbitrate, h1, h2],
          fun h1 h2 => by simp [arbitrate, h1, h2], ?_, ?_⟩
  · unfold arbitrate
    split_ifs <;> simp
  · unfold arbitrate
    split_ifs <;> simp

/-- Witness for C2 on the spec's end-to-end pairs, including a pair with
both predictions above threshold resolved to `TurnLeft`. -/
theorem arbitrate_priority_policy_witness :
    arbitrate ⟨.val q08, .val q09⟩ = .turnLeft
    ∧ arbitrate ⟨.val q08, .val q01⟩ = .turnRight
    ∧ arbitrate ⟨.val q03, .val q02⟩ = .stop :=
  ⟨(arbitrate_priority_policy (.val q08) (.val q09)).1 (by decide),
   (arbitrate_priority_policy (.val q08) (.val q01)).2.1 (by decide) (by decide),
   (arbitrate_priority_policy (.val q03) (.val q02)).2.2.1 (by decide) (by decide)⟩

/-- Counterexample to C3: a pair with `left = NaN` and `right = 0.9 > 0.6`
is arbitrated to `TurnRight`, not `Stop` — NaN on the left only fails the
first comparison, and evaluation falls through to the right-turn test. -/
theorem arbitrate_nan_left_counterexample :
    arbitrate ⟨.val q09, .nan⟩ = .turnRight
    ∧ DriveCommand.turnRight ≠ DriveCommand.stop :=
  ⟨by decide, by decide⟩

/-- C3 (amended): arbitration returns `Stop` exactly when both predictions
fail the `> 0.6` comparison (each being `<= 0.6` or NaN); a pair with
`left = NaN` and `right > 0.6` instead yields `TurnRight`. -/
theorem arbitrate_stop_condition :
    ∀ r l : F32,
      (F32.gt l (.val threshold) = false →
        F32.gt r (.val threshold) = false → arbitrate ⟨r, l⟩ = .stop)
      ∧ (F32.gt r (.val threshold) = true →
          arbitrate ⟨r, .nan⟩ = .turnRight) := by
  intro r l
  exact ⟨fun h1 h2 => by simp [arbitrate, h1, h2],
         fun h => by
          simp [arbitrate, h,
            show F32.gt F32.nan (F32.val threshold) = false from rfl]⟩

/-- Witness for the amended C3: both-low and both-NaN pairs stop; a
NaN-left, high-right pair turns right. -/
theorem arbitrate_stop_condition_witness :
    arbitrate ⟨.val q03, .val q02⟩ = .stop
    ∧ arbitrate ⟨.nan, .nan⟩ = .stop
    ∧ arbitrate ⟨.val q09, .nan⟩ = .turnRight :=
  ⟨(arbitrate_stop_condition (.val q03) (.val q02)).1 (by decide) (by decide),
   (arbitrate_stop_condition .nan .nan).1 (by decide) (by decide),
   (arbitrate_stop_condition (.val q09) .nan).2 (by decide)⟩

/-- C4: each motor operation that completes successfully leaves the six
drive lines exactly in the command table's pattern, independent of the
prior line state and of which writes could have faulted. -/
theorem motor_ops_write_table :
    ∀ (failing : Line → Bool) (s m' : MotorState),
      (MotorPins.forward failing s = (m', none) → m' = forwardPattern)
      ∧ (MotorPins.backward failing s = (m', none) → m' = backwardPattern)
      ∧ (MotorPins.turn_left failing s = (m', none) → m' = turnLeftPattern)
      ∧ (MotorPins.turn_right failing s = (m', none) → m' = turnRightPattern)
      ∧ (MotorPins.stop failing s = (m', none) → m' = stopPattern) := by
  intro failing s m'
  exact ⟨fun h => (runWrites_eq_applyWrites failing forwardWrites s m' h).trans
            (applyWrites_forwardWrites s),
         fun h => (runWrites_eq_applyWrites failing backwardWrites s m' h).trans
            (applyWrites_backwardWrites s),
         fun h => (runWrites_eq_applyWrites failing turnLeftWrites s m' h).trans
            (applyWrites_turnLeftWrites s),
         fun h => (runWrites_eq_applyWrites failing turnRightWrites s m' h).trans
            (applyWrites_turnRightWrites s),
         fun h => (runWrites_eq_applyWrites failing stopWrites s m' h).trans
            (applyWrites_stopWrites s)⟩

/-- Witness for C4: fault-free `forward` from the `Backward` pattern and
fault-free `stop` from the `Forward` pattern both succeed, and the theorem
applies to them. -/
theorem motor_ops_write_table_witness :
    MotorPins.forward noFail backwardPattern = (forwardPattern, none)
    ∧ MotorPins.stop noFail forwardPattern = (stopPattern, none)
    ∧ forwardPattern = forwardPattern ∧ stopPattern = stopPattern :=
  ⟨by decide, by decide,
   (motor_ops_write_table noFail backwardPattern forwardPattern).1 (by decide),
   (motor_ops_write_table noFail forwardPattern stopPattern).2.2.2.2 (by decide)⟩

/-- Counterexample to C5: a command-channel message with only one (float)
argument applies no command — the motors stay unchanged — yet the
listener still sets `last_message_time` to the current instant 42, so
WatchdogClock does not stay unchanged as claimed. -/
theorem clock_update_counterexample :
    step noFail false 42
      (.datagram (some (.message ⟨"/neuropype", [.float (.val q09)]⟩)))
      ⟨stopPattern, 0, []⟩ = .next ⟨stopPattern, 42, []⟩
    ∧ (42 : ℕ) ≠ 0 :=
  ⟨by decide, by decide⟩

/-- C5 (amended): WatchdogClock is updated on every decoded message
addressed to the command channel, whether or not a command was applied.
A datagram addressed to an unrelated channel leaves both ActuatorState
and WatchdogClock unchanged; a command-channel message with non-float or
missing arguments leaves ActuatorState unchanged but still resets
WatchdogClock to the current instant; the watchdog tick itself never
updates WatchdogClock. -/
theorem clock_update_policy :
    ∀ (failing : Line → Bool) (lockPoisoned : Bool) (now : ℕ)
      (s : ListenerState),
      (∀ msg : OscMessage, msg.addr ≠ "/neuropype" →
        step failing lockPoisoned now (.datagram (some (.message msg))) s
          = .next s)
      ∧ (∀ (a0 a1 : OscType) (rest : List OscType),
          a0.isFloat = false ∨ a1.isFloat = false →
          step failing lockPoisoned now
            (.datagram (some (.message ⟨"/neuropype", a0 :: a1 :: rest⟩))) s
            = .next { s with last_message_time := now })
      ∧ (∀ args : List OscType, args.length < 2 →
          step failing lockPoisoned now
            (.datagram (some (.message ⟨"/neuropype", args⟩))) s
            = .next { s with last_message_time := now })
      ∧ ∃ s', step failing lockPoisoned now .wouldBlock s = .next s'
          ∧ s'.last_message_time = s.last_message_time := by
  intro failing lockPoisoned now s
  refine ⟨?_, ?_, ?_, ?_⟩
  · intro msg h
    simp [step, processMessage, h]
  · intro a0 a1 rest h
    simp [step, processMessage,
      handle_non_float failing lockPoisoned _ a0 a1 rest s.motors h]
  · intro args h
    simp [step, processMessage,
      handle_short_args failing lockPoisoned _ args s.motors h]
  · by_cases hc : now - s.last_message_time > TIMEOUT_MILLIS
    · cases lockPoisoned
      · exact ⟨{ s with motors := (MotorPins.stop failing s.motors).1 },
          by simp [step, hc], rfl⟩
      · exact ⟨s, by simp [step, hc], rfl⟩
    · exact ⟨s, by simp [step, hc], rfl⟩

/-- Witness for the amended C5: an unrelated-channel message leaves the
state alone; an int-typed first argument and a missing second argument
both leave the motors alone while resetting the clock from 3 to 9. -/
theorem clock_update_policy_witness :
    step noFail false 9
      (.datagram (some (.message ⟨"/other", [.float (.val q09), .float (.val q09)]⟩)))
      ⟨stopPattern, 3, []⟩ = .next ⟨stopPattern, 3, []⟩
    ∧ step noFail false 9
      (.datagram (some (.message ⟨"/neuropype", [.int 1, .float (.val q09)]⟩)))
      ⟨stopPattern, 3, []⟩ = .next ⟨stopPattern, 9, []⟩
    ∧ step noFail false 9
      (.datagram (some (.message ⟨"/neuropype", [.float (.val q09)]⟩)))
      ⟨stopPattern, 3, []⟩ = .next ⟨stopPattern, 9, []⟩ :=
  ⟨(clock_update_policy noFail false 9 ⟨stopPattern, 3, []⟩).1
      ⟨"/other", [.float (.val q09), .float (.val q09)]⟩ (by decide),
   (clock_update_policy noFail false 9 ⟨stopPattern, 3, []⟩).2.1
      (.int 1) (.float (.val q09)) [] (Or.inl (by decide)),
   (clock_update_policy noFail false 9 ⟨stopPattern, 3, []⟩).2.2.1
      [.float (.val q09)] (by decide)⟩

/-- Counterexample to C6: a command-channel message hiding inside a
nested bundle is ignored — the state is unchanged — while the same
message as a direct bundle member is processed; members that are nested
bundles are not unwrapped recursively. -/
theorem nested_bundle_counterexample :
    step noFail false 7
      (.datagram (some (.bundle 0 [.bundle 0
        [.message ⟨"/neuropype", [.float (.val q01), .float (.val q09)]⟩]])))
      ⟨stopPattern, 0, []⟩ = .next ⟨stopPattern, 0, []⟩
    ∧ step noFail false 7
      (.datagram (some (.bundle 0
        [.message ⟨"/neuropype", [.float (.val q01), .float (.val q09)]⟩])))
      ⟨stopPattern, 0, []⟩ = .next ⟨turnLeftPattern, 7, []⟩ :=
  ⟨by decide, by decide⟩

/-- C6 (amended): only the direct message-type members of a received
bundle are examined, in member order; command-channel members each apply
their own arbitration result, other messages are ignored, and members
that are themselves nested bundles are skipped entirely rather than
unwrapped recursively. -/
theorem bundle_member_processing :
    ∀ (failing : Line → Bool) (lockPoisoned : Bool) (now tg tg' : ℕ)
      (c rest : List OscPacket) (s : ListenerState),
      (step failing lockPoisoned now
          (.datagram (some (.bundle tg (.bundle tg' c :: rest)))) s
        = step failing lockPoisoned now (.datagram (some (.bundle tg rest))) s)
      ∧ (∀ m1 m2 : OscMessage, m2.addr ≠ "/neuropype" →
          step failing lockPoisoned now
            (.datagram (some (.bundle tg [.message m1, .message m2]))) s
            = step failing lockPoisoned now (.datagram (some (.message m1))) s)
      ∧ (step noFail false now
          (.datagram (some (.bundle tg
            [.message ⟨"/neuropype", [.float (.val q01), .float (.val q09)]⟩,
             .message ⟨"/neuropype", [.float (.val q08), .float (.val q01)]⟩]))) s
          = .next { s with motors := turnRightPattern,
                           last_message_time := now }) := by
  intro failing lockPoisoned now tg tg' c rest s
  refine ⟨rfl, ?_, ?_⟩
  · intro m1 m2 h2
    show processBundleContent failing lockPoisoned now
        [.message m1, .message m2] s
      = processMessage failing lockPoisoned now m1 s
    cases hpm : processMessage failing lockPoisoned now m1 s with
    | next s' =>
        have h2' : processMessage failing lockPoisoned now m2 s' = .next s' := by
          simp [processMessage, h2]
        simp [processBundleContent, hpm, h2']
    | panicked s' => simp [processBundleContent, hpm]
  · have e1 : processMessage noFail false now
        ⟨"/neuropype", [.float (.val q01), .float (.val q09)]⟩ s
        = .next { s with motors := turnLeftPattern, last_message_time := now } := by
      simp [processMessage, handle_mental_imagery, q09_gt, turn_left_noFail]
    have e2 : processMessage noFail false now
        ⟨"/neuropype", [.float (.val q08), .float (.val q01)]⟩
        { s with motors := turnLeftPattern, last_message_time := now }
        = .next { s with motors := turnRightPattern, last_message_time := now } := by
      simp [processMessage, handle_mental_imagery, q01_not_gt, q08_gt,
        turn_right_noFail]
    show processBundleContent noFail false now _ s = _
    simp [processBundleContent, e1, e2]

/-- Witness for the amended C6: the spec's bundle scenario — a bundle of
one command-channel message and one unrelated message behaves exactly
like the command-channel message alone. -/
theorem bundle_member_processing_witness :
    step noFail false 5
      (.datagram (some (.bundle 0
        [.message ⟨"/neuropype", [.float (.val q01), .float (.val q09)]⟩,
         .message ⟨"/status", [.int 3]⟩])))
      ⟨stopPattern, 0, []⟩
      = step noFail false 5
          (.datagram (some (.message
            ⟨"/neuropype", [.float (.val q01), .float (.val q09)]⟩)))
          ⟨stopPattern, 0, []⟩ :=
  (bundle_member_processing noFail false 5 0 0 [] []
      ⟨stopPattern, 0, []⟩).2.1
    ⟨"/neuropype", [.float (.val q01), .float (.val q09)]⟩
    ⟨"/status", [.int 3]⟩ (by decide)

/-- Counterexample to C7: starting from the (valid) `Backward` pattern,
the third pin write of `forward` raises `left_forward` while
`left_backward` is still high, so mid-call a forward line and its paired
backward line are simultaneously high. -/
theorem midcall_paired_lines_counterexample :
    pairedOk backwardPattern = true
    ∧ (scanWrites forwardWrites backwardPattern).getD 2 stopPattern
        = ⟨true, false, true, true, true, true⟩
    ∧ pairedOk ⟨true, false, true, true, true, true⟩ = false :=
  ⟨by decide, by decide, by decide⟩

/-- C7 (amended): every operation unconditionally writes all six lines,
so its successfully completed state is the whole fixed pattern —
independent of the prior line state — and that state satisfies the
paired-line invariant; the invariant is guaranteed at operation
completion, not at every intermediate point of the call. -/
theorem completed_op_paired_invariant :
    ∀ (failing : Line → Bool) (s m' : MotorState),
      (MotorPins.forward failing s = (m', none) → pairedOk m' = true)
      ∧ (MotorPins.backward failing s = (m', none) → pairedOk m' = true)
      ∧ (MotorPins.turn_left failing s = (m', none) → pairedOk m' = true)
      ∧ (MotorPins.turn_right failing s = (m', none) → pairedOk m' = true)
      ∧ (MotorPins.stop failing s = (m', none) → pairedOk m' = true) := by
  intro failing s m'
  refine ⟨fun h => ?_, fun h => ?_, fun h => ?_, fun h => ?_, fun h => ?_⟩
  · rw [(runWrites_eq_applyWrites failing forwardWrites s m' h).trans
      (applyWrites_forwardWrites s)]
    decide
  · rw [(runWrites_eq_applyWrites failing backwardWrites s m' h).trans
      (applyWrites_backwardWrites s)]
    decide
  · rw [(runWrites_eq_applyWrites failing turnLeftWrites s m' h).trans
      (applyWrites_turnLeftWrites s)]
    decide
  · rw [(runWrites_eq_applyWrites failing turnRightWrites s m' h).trans
      (applyWrites_turnRightWrites s)]
    decide
  · rw [(runWrites_eq_applyWrites failing stopWrites s m' h).trans
      (applyWrites_stopWrites s)]
    decide

/-- Witness for the amended C7: a fault-free `turn_left` from the
`Backward` pattern completes in the `TurnLeft` pattern, which satisfies
the paired-line invariant. -/
theorem completed_op_paired_invariant_witness :
    MotorPins.turn_left noFail backwardPattern = (turnLeftPattern, none)
    ∧ pairedOk turnLeftPattern = true :=
  ⟨by decide,
   (completed_op_paired_invariant noFail backwardPattern
      turnLeftPattern).2.2.1 (by decide)⟩

/-- C8: with the mutex healthy, no steady-state error terminates the
receive loop — every iteration yields a next state; a decode failure is
logged and the loop continues; a hardware-apply fault from a message is
logged (and the clock still updated) and the loop continues; a fault
while the watchdog forces stop is swallowed: the tick still yields the
next state with no error propagated and nothing appended to the log. -/
theorem steady_state_errors_nonfatal :
    (∀ (failing : Line → Bool) (now : ℕ) (ev : RecvEvent) (s : ListenerState),
      ∃ s', step failing false now ev s = .next s')
    ∧ (∀ (failing : Line → Bool) (now : ℕ) (s : ListenerState),
        step failing false now (.datagram none) s
          = .next { s with log := .decodeError :: s.log })
    ∧ (∀ (failing : Line → Bool) (now : ℕ) (s : ListenerState)
        (msg : OscMessage) (m' : MotorState) (l : Line),
        msg.addr = "/neuropype" →
        handle_mental_imagery failing false msg s.motors = .ret m' (some l) →
        step failing false now (.datagram (some (.message msg))) s
          = .next { s with motors := m', last_message_time := now,
                           log := .handleError l :: s.log })
    ∧ (∀ (failing : Line → Bool) (now : ℕ) (s : ListenerState),
        now - s.last_message_time > TIMEOUT_MILLIS →
        step failing false now .wouldBlock s
          = .next { s with motors := (MotorPins.stop failing s.motors).1 }) := by
  refine ⟨step_next, fun failing now s => rfl, ?_, ?_⟩
  · intro failing now s msg m' l haddr hh
    simp [step, processMessage, haddr, hh]
  · intro failing now s h
    simp [step, h]

/-- Witness for C8: with every pin write faulting, a command message
leaves the motors unchanged, logs the failing line and continues; a
watchdog tick past the threshold swallows the stop fault and continues
with nothing logged. -/
theorem steady_state_errors_nonfatal_witness :
    handle_mental_imagery allFail false
        ⟨"/neuropype", [.float (.val q01), .float (.val q09)]⟩ stopPattern
      = .ret stopPattern (some .leftEnable)
    ∧ step allFail false 9
        (.datagram (some (.message
          ⟨"/neuropype", [.float (.val q01), .float (.val q09)]⟩)))
        ⟨stopPattern, 0, []⟩
      = .next ⟨stopPattern, 9, [.handleError .leftEnable]⟩
    ∧ step allFail false 6000 .wouldBlock ⟨backwardPattern, 0, []⟩
      = .next ⟨backwardPattern, 0, []⟩ :=
  ⟨by decide,
   steady_state_errors_nonfatal.2.2.1 allFail 9 ⟨stopPattern, 0, []⟩
     ⟨"/neuropype", [.float (.val q01), .float (.val q09)]⟩
     stopPattern .leftEnable (by decide) (by decide),
   steady_state_errors_nonfatal.2.2.2 allFail 6000
     ⟨backwardPattern, 0, []⟩ (by decide)⟩

/-- C9: for a command-channel message with at least two arguments, any
first or second argument that is not exactly an OSC `Float` — including
the numeric `Int`, `Long` and `Double` types — makes the handler return
successfully with the motors untouched. -/
theorem non_float_args_ignored :
    ∀ (failing : Line → Bool) (lockPoisoned : Bool) (addr : String)
      (a0 a1 : OscType) (rest : List OscType) (m : MotorState),
      a0.isFloat = false ∨ a1.isFloat = false →
      handle_mental_imagery failing lockPoisoned ⟨addr, a0 :: a1 :: rest⟩ m
        = .ret m none :=
  fun failing lockPoisoned addr a0 a1 rest m h =>
    handle_non_float failing lockPoisoned addr a0 a1 rest m h

/-- Witness for C9: an `Int` first argument and a `Double` second
argument are both ignored even though they are numeric. -/
theorem non_float_args_ignored_witness :
    handle_mental_imagery noFail false
        ⟨"/neuropype", [.int 1, .float (.val q09)]⟩ stopPattern
      = .ret stopPattern none
    ∧ handle_mental_imagery noFail false
        ⟨"/neuropype", [.float (.val q09), .double (.val q09)]⟩ stopPattern
      = .ret stopPattern none :=
  ⟨non_float_args_ignored noFail false "/neuropype" (.int 1)
      (.float (.val q09)) [] stopPattern (Or.inl (by decide)),
   non_float_args_ignored noFail false "/neuropype" (.float (.val q09))
      (.double (.val q09)) [] stopPattern (Or.inr (by decide))⟩

/-- C10: lock-failure handling is asymmetric — with the mutex poisoned, a
command-channel message with two float arguments panics the handler (and
the whole listener step), whereas the watchdog's timeout tick treats the
failed lock as recoverable and simply skips the forced stop. -/
theorem lock_poisoning_asymmetry :
    (∀ (failing : Line → Bool) (addr : String) (r l : F32)
        (rest : List OscType) (m : MotorState),
        handle_mental_imagery failing true
          ⟨addr, .float r :: .float l :: rest⟩ m = .panicked m)
    ∧ (∀ (failing : Line → Bool) (now : ℕ) (s : ListenerState) (r l : F32)
        (rest : List OscType),
        step failing true now
          (.datagram (some (.message
            ⟨"/neuropype", .float r :: .float l :: rest⟩))) s
          = .panicked s)
    ∧ (∀ (failing : Line → Bool) (now : ℕ) (s : ListenerState),
        now - s.last_message_time > TIMEOUT_MILLIS →
        step failing true now .wouldBlock s = .next s) := by
  refine ⟨fun failing addr r l rest m => rfl,
          fun failing now s r l rest => rfl, ?_⟩
  intro failing now s h
  simp [step, h]

/-- Witness for C10: with a poisoned lock, a concrete command message
panics while a timeout tick past the threshold leaves the state untouched
without panicking. -/
theorem lock_poisoning_asymmetry_witness :
    handle_mental_imagery noFail true
        ⟨"/neuropype", [.float (.val q09), .float (.val q01)]⟩ stopPattern
      = .panicked stopPattern
    ∧ step noFail true 6000 .wouldBlock ⟨backwardPattern, 0, []⟩
        = .next ⟨backwardPattern, 0, []⟩ :=
  ⟨lock_poisoning_asymmetry.1 noFail "/neuropype" (.val q09) (.val q01)
      [] stopPattern,
   lock_poisoning_asymmetry.2.2 noFail 6000 ⟨backwardPattern, 0, []⟩
      (by decide)⟩

end OpenBci
